import Mathlib

/-!
Verification development for the POD-UQNN core (files `podnn/acceleration.py`
and `podnn/podnnmodel.py`): a shallow embedding of the Latin-Hypercube sampler,
the snapshot generators, the restructuring helper, the mean/variance
accumulation kernels, the dataset pipeline, and the orchestrator's
error-handling paths, over exact rational arithmetic.  Randomness (uniform
draws, permutations, Gaussian draws) is made explicit as function inputs, and
the floating-point special values produced by numpy (NaN, infinities) are
modelled by an explicit value domain.
-/

namespace PodUQNN

/-- Result domain of a numpy floating-point scalar operation: a finite value
(tracked exactly as a rational), NaN, or a signed infinity. -/
inductive NpF where
  | fin (q : ℚ)
  | nan
  | inf
  | ninf
deriving DecidableEq

/-- numpy division `a / b` (runtime warnings are suppressed in
`acceleration.py`): division by zero yields NaN for `0 / 0` and a signed
infinity otherwise; ordinary division elsewhere. -/
def npDiv (a b : ℚ) : NpF :=
  if b = 0 then
    if a = 0 then NpF.nan else if 0 < a then NpF.inf else NpF.ninf
  else NpF.fin (a / b)

/-- numpy `sqrt`: NaN on negative inputs and on NaN; on a nonnegative rational
it applies `sqrt`, the exact square-root function restricted to the rationals
that actually occur (passed in as a parameter throughout). -/
def npSqrt (sqrt : ℚ → ℚ) : NpF → NpF
  | NpF.fin q => if q < 0 then NpF.nan else NpF.fin (sqrt q)
  | NpF.nan => NpF.nan
  | NpF.inf => NpF.inf
  | NpF.ninf => NpF.nan

/-- The largest double, which `np.nan_to_num` substitutes for `+inf`. -/
def floatMax : ℚ := 2 ^ 1024 - 2 ^ 971

/-- Model of `np.nan_to_num`: NaN becomes 0, the infinities become the extreme finite
doubles, finite values pass through. -/
def nanToNum : NpF → ℚ
  | NpF.fin q => q
  | NpF.nan => 0
  | NpF.inf => floatMax
  | NpF.ninf => -floatMax

/-- Dot product of two rational vectors. -/
def dotQ (xs ys : List ℚ) : ℚ := (List.zipWith (· * ·) xs ys).sum

/-- Model of `V.dot(w)`: matrix–vector product, each row of `V` against `w`. -/
def matVec (V : List (List ℚ)) (w : List ℚ) : List ℚ :=
  V.map (fun row => dotQ row w)

/-- The values of an ensemble of full-field vectors at one DOF `r`. -/
def ensembleAt (Us : List (List ℚ)) (r : ℕ) : List ℚ :=
  Us.map (fun U => U.getD r 0)

/-- One DOF of lines 427–429 of `podnnmodel.py` (identically lines 398–399):
`np.nan_to_num(np.sqrt((n*U_tot_sq - U_tot**2) / (n*(n - 1))))` applied to the
accumulated sum `s` and sum of squares `q` of `n` values. -/
def stdCodeQ (sqrt : ℚ → ℚ) (n : ℕ) (s q : ℚ) : ℚ :=
  nanToNum (npSqrt sqrt (npDiv ((n : ℚ) * q - s ^ 2) ((n : ℚ) * ((n : ℚ) - 1))))

/-- The specification's derived-statistics formula (claim side, for
comparison): `sqrt((n*sumsq - sum^2) / (n*(n-1)))` with the radicand clamped
to nonnegative before the square root, and the result NaN-sanitized to 0 for
`n = 1` (and degenerately for `n = 0`). -/
def stdSpecFormula (sqrt : ℚ → ℚ) (n : ℕ) (s q : ℚ) : ℚ :=
  if n ≤ 1 then 0
  else sqrt (max (((n : ℚ) * q - s ^ 2) / ((n : ℚ) * ((n : ℚ) - 1))) 0)

/-- Model of `PodnnModel.do_vdot`, steady-state branch (lines 411–431 of
`podnnmodel.py`): each row `vᵢ` of `v` is reconstructed to `V.dot(vᵢ)` by
`loop_vdot`, the results are accumulated elementwise into a running sum and a
running sum of squares, and the mean `U_tot / n_s` (not NaN-sanitized) and the
Bessel-corrected standard deviation (NaN-sanitized) are derived. -/
def do_vdot_model (sqrt : ℚ → ℚ) (V v : List (List ℚ)) :
    List NpF × List ℚ :=
  let Us := v.map (matVec V)
  let n := v.length
  ((List.range V.length).map (fun r => npDiv (ensembleAt Us r).sum (n : ℚ)),
   (List.range V.length).map (fun r =>
     stdCodeQ sqrt n (ensembleAt Us r).sum
       ((ensembleAt Us r).map (fun x => x ^ 2)).sum))

lemma getD_map_range {α : Type} (L : ℕ) (f : ℕ → α) (r : ℕ) (d : α)
    (hr : r < L) : ((List.range L).map f).getD r d = f r := by
  simp [List.getD_eq_getElem?_getD, List.getElem?_map, List.getElem?_range hr]

lemma sumSq_nonneg (xs : List ℚ) : (0 : ℚ) ≤ (xs.map (fun x => x ^ 2)).sum := by
  apply List.sum_nonneg
  intro x hx
  simp only [List.mem_map] at hx
  obtain ⟨y, _, rfl⟩ := hx
  positivity

lemma sq_sum_le_len_mul_sumSq (xs : List ℚ) :
    xs.sum ^ 2 ≤ (xs.length : ℚ) * (xs.map (fun x => x ^ 2)).sum := by
  induction xs with
  | nil => simp
  | cons a xs ih =>
    have hq0 : (0 : ℚ) ≤ (xs.map (fun x => x ^ 2)).sum := sumSq_nonneg xs
    rcases Nat.eq_zero_or_pos xs.length with h0 | hpos
    · have hnil : xs = [] := List.length_eq_zero.mp h0
      subst hnil; simp
    · have hn : (0 : ℚ) < (xs.length : ℚ) := by exact_mod_cast hpos
      simp only [List.sum_cons, List.map_cons, List.length_cons]
      push_cast
      nlinarith [sq_nonneg ((xs.length : ℚ) * a - xs.sum), ih, hq0,
        mul_nonneg (by linarith : (0 : ℚ) ≤ (xs.length : ℚ) + 1)
          (by linarith :
            (0 : ℚ) ≤ (xs.length : ℚ) * (xs.map (fun x => x ^ 2)).sum - xs.sum ^ 2)]

lemma stdCode_eq_spec (sqrt : ℚ → ℚ) (xs : List ℚ) :
    stdCodeQ sqrt xs.length xs.sum ((xs.map (fun x => x ^ 2)).sum) =
      stdSpecFormula sqrt xs.length xs.sum ((xs.map (fun x => x ^ 2)).sum) := by
  rcases xs with _ | ⟨a, ys⟩
  · simp [stdCodeQ, stdSpecFormula, npDiv, npSqrt, nanToNum]
  rcases ys with _ | ⟨b, zs⟩
  · have h1 : ((List.length [a] : ℚ)) * (([a].map (fun x => x ^ 2)).sum)
        - ([a].sum) ^ 2 = 0 := by
      simp
    have h2 : ((List.length [a] : ℚ)) * ((List.length [a] : ℚ) - 1) = 0 := by
      simp
    rw [stdCodeQ, stdSpecFormula, h1, h2, npDiv]
    simp [npSqrt, nanToNum]
  · set l := a :: b :: zs with hl
    set n := l.length with hn
    set s := l.sum with hs
    set q := (l.map (fun x => x ^ 2)).sum with hq
    have hn2 : 2 ≤ n := by simp [hn, hl]
    have hnQ : (2 : ℚ) ≤ (n : ℚ) := by exact_mod_cast hn2
    have hdpos : (0 : ℚ) < ((n : ℚ)) * ((n : ℚ) - 1) :=
      mul_pos (by linarith) (by linarith)
    have hden : ((n : ℚ)) * ((n : ℚ) - 1) ≠ 0 := hdpos.ne'
    have hnum : 0 ≤ (n : ℚ) * q - s ^ 2 := by
      have hcs := sq_sum_le_len_mul_sumSq l
      rw [← hn, ← hs, ← hq] at hcs
      linarith
    have hrad : 0 ≤ ((n : ℚ) * q - s ^ 2) / ((n : ℚ) * ((n : ℚ) - 1)) :=
      div_nonneg hnum hdpos.le
    rw [stdCodeQ, stdSpecFormula, npDiv, if_neg hden]
    rw [if_neg (by omega : ¬ n ≤ 1), max_eq_left hrad]
    simp [npSqrt, nanToNum, not_lt.mpr hrad]

/-- C3: for every ensemble given by the rows of `v`, reconstructed through the
basis `V` and accumulated by `do_vdot` into a running sum and sum of squares,
the derived mean at each DOF is `sum / n` and the derived standard deviation
equals the spec's formula `sqrt((n*sumsq - sum^2)/(n*(n-1)))` with the
radicand clamped to nonnegative before the square root and the `n = 1` (NaN)
case sanitized to 0; moreover for arbitrary (not necessarily accumulated)
sums with `n ≥ 2` the code's NaN-path agrees with the clamp-first formula
whenever `sqrt 0 = 0`. -/
theorem do_vdot_mean_std_formula (sqrt : ℚ → ℚ) (V v : List (List ℚ)) (r : ℕ)
    (hs : sqrt 0 = 0) (hne : v ≠ []) (hr : r < V.length) :
    (do_vdot_model sqrt V v).1.getD r NpF.nan =
      NpF.fin ((ensembleAt (v.map (matVec V)) r).sum / (v.length : ℚ)) ∧
    (do_vdot_model sqrt V v).2.getD r 0 =
      stdSpecFormula sqrt v.length (ensembleAt (v.map (matVec V)) r).sum
        ((ensembleAt (v.map (matVec V)) r).map (fun x => x ^ 2)).sum ∧
    ∀ n : ℕ, ∀ s q : ℚ, 2 ≤ n →
      stdCodeQ sqrt n s q = stdSpecFormula sqrt n s q := by
  have hlen : (ensembleAt (v.map (matVec V)) r).length = v.length := by
    simp [ensembleAt]
  refine ⟨?_, ?_, ?_⟩
  · show ((List.range V.length).map _).getD r NpF.nan = _
    rw [getD_map_range _ _ _ _ hr]
    have hn : ((v.length : ℚ)) ≠ 0 := by
      have : v.length ≠ 0 := by
        intro h; exact hne (List.length_eq_zero.mp h)
      exact_mod_cast this
    simp [npDiv, hn]
  · show ((List.range V.length).map _).getD r 0 = _
    rw [getD_map_range _ _ _ _ hr]
    have := stdCode_eq_spec sqrt (ensembleAt (v.map (matVec V)) r)
    rw [hlen] at this
    exact this
  · intro n s q hn2
    have hnQ : (2 : ℚ) ≤ (n : ℚ) := by exact_mod_cast hn2
    have hden : ((n : ℚ)) * ((n : ℚ) - 1) ≠ 0 :=
      (mul_pos (by linarith) (by linarith : (0 : ℚ) < (n : ℚ) - 1)).ne'
    rw [stdCodeQ, stdSpecFormula, npDiv, if_neg hden,
      if_neg (by omega : ¬ n ≤ 1)]
    rcases le_or_lt 0 (((n : ℚ) * q - s ^ 2) / ((n : ℚ) * ((n : ℚ) - 1))) with
      hge | hlt
    · rw [max_eq_left hge]
      simp [npSqrt, nanToNum, not_lt.mpr hge]
    · rw [max_eq_right (le_of_lt hlt)]
      simp [npSqrt, nanToNum, hlt, hs]

/-- Witness for `do_vdot_mean_std_formula` at a concrete basis and ensemble. -/
theorem do_vdot_mean_std_formula_witness :
    (do_vdot_model (fun _ => 0) [[1]] [[1], [3]]).1.getD 0 NpF.nan =
      NpF.fin ((ensembleAt ([[1], [3]].map (matVec [[1]])) 0).sum / ((2 : ℕ) : ℚ)) ∧
    (do_vdot_model (fun _ => 0) [[1]] [[1], [3]]).2.getD 0 0 =
      stdSpecFormula (fun _ => 0) 2
        (ensembleAt ([[1], [3]].map (matVec [[1]])) 0).sum
        ((ensembleAt ([[1], [3]].map (matVec [[1]])) 0).map (fun x => x ^ 2)).sum ∧
    ∀ n : ℕ, ∀ s q : ℚ, 2 ≤ n →
      stdCodeQ (fun _ => 0) n s q = stdSpecFormula (fun _ => 0) n s q :=
  do_vdot_mean_std_formula (fun _ => 0) [[1]] [[1], [3]] 0 rfl
    (by simp) (by simp)

/-- Model of `PodnnModel.predict_var` (lines 389–404 of `podnnmodel.py`): the regressor
stub `sampler` is queried `n` times (`samples = 200` in the source), each draw
of coefficients is reconstructed to a full field through `V`, the fields are
accumulated into a running sum and sum of squares, the per-DOF mean and
Bessel-corrected NaN-sanitized standard deviation are derived, and when a POD
residual signature `podSig` is stored it is added elementwise to the standard
deviation (`U_pred_hifi_mean_sig += self.pod_sig[:, np.newaxis]`). -/
def predict_var_model (sqrt : ℚ → ℚ) (V : List (List ℚ)) (n : ℕ)
    (sampler : ℕ → List ℚ) (podSig : Option (List ℚ)) : List NpF × List ℚ :=
  let Us := (List.range n).map (fun i => matVec V (sampler i))
  let mean := (List.range V.length).map
    (fun r => npDiv (ensembleAt Us r).sum (n : ℚ))
  let sig0 := (List.range V.length).map (fun r =>
    stdCodeQ sqrt n (ensembleAt Us r).sum
      ((ensembleAt Us r).map (fun x => x ^ 2)).sum)
  (mean,
   match podSig with
   | none => sig0
   | some ps => List.zipWith (· + ·) sig0 ps)

lemma stdCode_const (sqrt : ℚ → ℚ) (n : ℕ) (c : ℚ) (hs : sqrt 0 = 0)
    (hn : 1 ≤ n) :
    stdCodeQ sqrt n ((n : ℚ) * c) ((n : ℚ) * c ^ 2) = 0 := by
  have hnum : (n : ℚ) * ((n : ℚ) * c ^ 2) - ((n : ℚ) * c) ^ 2 = 0 := by ring
  rw [stdCodeQ, hnum, npDiv]
  rcases Nat.lt_or_ge n 2 with h1 | h2
  · have hn1 : n = 1 := by omega
    subst hn1
    norm_num [npSqrt, nanToNum]
  · have hnQ : (2 : ℚ) ≤ (n : ℚ) := by exact_mod_cast h2
    have hden : ((n : ℚ)) * ((n : ℚ) - 1) ≠ 0 :=
      (mul_pos (by linarith) (by linarith : (0 : ℚ) < (n : ℚ) - 1)).ne'
    rw [if_neg hden]
    have h0 : (0 : ℚ) / ((n : ℚ) * ((n : ℚ) - 1)) = 0 := zero_div _
    rw [h0]
    simp [npSqrt, nanToNum, hs]

/-- C4: when every stochastic coefficient draw is identical — a regressor stub
whose `predict_sample` always returns the same vector `v0`, for any ensemble
size `n ≥ 1` (including `n = 1`) — the coefficient-induced standard-deviation
output of `predict_var` before the additive POD residual signature is exactly
the all-zero vector: never negative and never NaN.  The same holds for a
size-one ensemble fed to `do_vdot`. -/
theorem predict_var_zero_std_for_constant_draws (sqrt : ℚ → ℚ)
    (V : List (List ℚ)) (v0 : List ℚ) (n : ℕ) (hs : sqrt 0 = 0) (hn : 1 ≤ n) :
    (predict_var_model sqrt V n (fun _ => v0) none).2 =
      List.replicate V.length 0 ∧
    (do_vdot_model sqrt V [v0]).2 = List.replicate V.length 0 := by
  constructor
  · show (List.range V.length).map _ = _
    have hUs : (List.range n).map (fun _ => matVec V v0) =
        List.replicate n (matVec V v0) := by
      rw [List.map_const']
      simp
    rw [hUs]
    have hconst : ∀ r : ℕ,
        ensembleAt (List.replicate n (matVec V v0)) r =
          List.replicate n ((matVec V v0).getD r 0) := by
      intro r
      simp [ensembleAt, List.map_replicate]
    have hentry : ∀ r : ℕ,
        stdCodeQ sqrt n (ensembleAt (List.replicate n (matVec V v0)) r).sum
          ((ensembleAt (List.replicate n (matVec V v0)) r).map
            (fun x => x ^ 2)).sum = 0 := by
      intro r
      rw [hconst r]
      rw [List.map_replicate, List.sum_replicate, List.sum_replicate,
        nsmul_eq_mul, nsmul_eq_mul]
      exact stdCode_const sqrt n ((matVec V v0).getD r 0) hs hn
    calc (List.range V.length).map (fun r =>
          stdCodeQ sqrt n (ensembleAt (List.replicate n (matVec V v0)) r).sum
            ((ensembleAt (List.replicate n (matVec V v0)) r).map
              (fun x => x ^ 2)).sum)
        = (List.range V.length).map (fun _ => (0 : ℚ)) := by
          apply List.map_congr_left
          intro r _
          exact hentry r
      _ = List.replicate V.length 0 := by
          rw [List.map_const']
          simp
  · show (List.range V.length).map _ = _
    have hentry : ∀ r : ℕ,
        stdCodeQ sqrt (List.length [v0])
          (ensembleAt ([v0].map (matVec V)) r).sum
          ((ensembleAt ([v0].map (matVec V)) r).map (fun x => x ^ 2)).sum
          = 0 := by
      intro r
      have h1 : ensembleAt ([v0].map (matVec V)) r =
          [(matVec V v0).getD r 0] := by
        simp [ensembleAt]
      rw [h1]
      have h2 : ([(matVec V v0).getD r 0] : List ℚ).sum =
          ((1 : ℕ) : ℚ) * ((matVec V v0).getD r 0) := by simp
      have h3 : (([(matVec V v0).getD r 0] : List ℚ).map
          (fun x => x ^ 2)).sum = ((1 : ℕ) : ℚ) * ((matVec V v0).getD r 0) ^ 2 := by
        simp
      rw [h2, h3]
      exact stdCode_const sqrt 1 ((matVec V v0).getD r 0) hs le_rfl
    calc (List.range V.length).map (fun r =>
          stdCodeQ sqrt (List.length [v0])
            (ensembleAt ([v0].map (matVec V)) r).sum
            ((ensembleAt ([v0].map (matVec V)) r).map (fun x => x ^ 2)).sum)
        = (List.range V.length).map (fun _ => (0 : ℚ)) := by
          apply List.map_congr_left
          intro r _
          exact hentry r
      _ = List.replicate V.length 0 := by
          rw [List.map_const']
          simp

/-- Witness for `predict_var_zero_std_for_constant_draws` with a concrete
basis, constant draw and ensemble size. -/
theorem predict_var_zero_std_for_constant_draws_witness :
    (predict_var_model (fun _ => 0) [[1], [2]] 3 (fun _ => [5]) none).2 =
      List.replicate 2 0 ∧
    (do_vdot_model (fun _ => 0) [[1], [2]] [[5]]).2 = List.replicate 2 0 :=
  predict_var_zero_std_for_constant_draws (fun _ => 0) [[1], [2]] [5] 3 rfl
    (by omega)

lemma getD_zipWith_add (xs ys : List ℚ) (r : ℕ) (h1 : r < xs.length)
    (h2 : r < ys.length) :
    (List.zipWith (· + ·) xs ys).getD r 0 = xs.getD r 0 + ys.getD r 0 := by
  induction xs generalizing ys r with
  | nil => simp at h1
  | cons a as ih =>
    rcases ys with _ | ⟨b, bs⟩
    · simp at h2
    rcases r with _ | r
    · simp
    · simp only [List.zipWith_cons_cons, List.getD_cons_succ]
      exact ih bs r (by simpa using h1) (by simpa using h2)

/-- C5: when a POD residual signature is stored, the standard deviation
returned by `predict_var` is the Monte-Carlo coefficient-induced standard
deviation plus, elementwise, the per-DOF POD residual signature; the
combination is plain addition and not quadrature, as the concrete instance
with coefficient-induced deviation 3 and signature 4 shows: the output is 7,
whose square 49 differs from 3² + 4² = 25. -/
theorem predict_var_adds_pod_signature (sqrt : ℚ → ℚ) (V : List (List ℚ))
    (n : ℕ) (sampler : ℕ → List ℚ) (ps : List ℚ) (r : ℕ)
    (h1 : r < V.length) (h2 : r < ps.length) :
    (predict_var_model sqrt V n sampler (some ps)).2.getD r 0 =
      (predict_var_model sqrt V n sampler none).2.getD r 0 + ps.getD r 0 ∧
    (predict_var_model (fun q => if q = 9 then 3 else 0) [[1]] 3
        (fun i => if i = 0 then [-3] else if i = 1 then [0] else [3])
        (some [4])).2 = [7] ∧
    ((7 : ℚ)) ^ 2 ≠ 3 ^ 2 + 4 ^ 2 := by
  refine ⟨?_, ?_, by norm_num⟩
  · show (List.zipWith (· + ·) ((List.range V.length).map _) ps).getD r 0 = _
    rw [getD_zipWith_add _ _ r (by simpa using h1) h2]
    rfl
  · simp only [predict_var_model, List.range_succ, List.range_zero,
      List.map_cons, List.map_nil, List.nil_append, List.cons_append,
      ensembleAt, matVec, dotQ, stdCodeQ, npDiv, npSqrt, nanToNum]
    norm_num [List.zipWith]

/-- Witness for `predict_var_adds_pod_signature` at a concrete basis,
signature and DOF index. -/
theorem predict_var_adds_pod_signature_witness :
    (predict_var_model (fun _ => 1) [[1]] 2 (fun _ => [5]) (some [4])).2.getD 0 0 =
      (predict_var_model (fun _ => 1) [[1]] 2 (fun _ => [5]) none).2.getD 0 0
        + ([4] : List ℚ).getD 0 0 ∧
    (predict_var_model (fun q => if q = 9 then 3 else 0) [[1]] 3
        (fun i => if i = 0 then [-3] else if i = 1 then [0] else [3])
        (some [4])).2 = [7] ∧
    ((7 : ℚ)) ^ 2 ≠ 3 ^ 2 + 4 ^ 2 :=
  predict_var_adds_pod_signature (fun _ => 1) [[1]] 2 (fun _ => [5]) [4] 0
    (by norm_num) (by norm_num)

/-- Entry `H[i, j]` of `lhs(n, samples)` (lines 103–124 of
`acceleration.py`), with the randomness explicit: `uMat i j` is the uniform
draw `u[i, j] ∈ [0, 1)` and `order j` is the random permutation of
`0..samples-1` used for column `j`.  With `cut = np.linspace(0, 1, samples+1)`
one has `rdpoints[i, j] = u[i, j]*(1/samples) + i/samples` and
`H[i, j] = rdpoints[order_j(i), j]`. -/
def lhsH (uMat : ℕ → ℕ → ℚ) (order : ℕ → ℕ → ℕ) (samples : ℕ) (i j : ℕ) : ℚ :=
  (uMat (order j i) j + (order j i : ℚ)) / (samples : ℚ)

/-- Model of `PodnnModel.sample_mu` (lines 64–68 of `podnnmodel.py`):
`X_lhs = lhs(n_s, mu_min.shape[0]).T`, then
`mu_lhs = mu_min + (mu_max - mu_min) * X_lhs`.  So the `lhs` call receives
`n := n_s` and `samples := dim`, and entry `(s, k)` of the returned matrix is
`mu_min[k] + (mu_max[k] - mu_min[k]) * H[k, s]`. -/
def sample_mu_model (uMat : ℕ → ℕ → ℚ) (order : ℕ → ℕ → ℕ)
    (muMin muMax : List ℚ) (s k : ℕ) : ℚ :=
  muMin.getD k 0 + (muMax.getD k 0 - muMin.getD k 0) *
    lhsH uMat order muMin.length k s

/-- C1 (failing input): `sample_mu` with `n_s = 2` samples over the
one-dimensional bounds `[0] ≤ mu ≤ [1]`, with uniform draws
`u = [[1/10, 1/5]]` (each in `[0, 1)`) and the only possible (identity)
permutations of `range(1)`.  Both returned samples land in stratum 0 of the
two-strata partition of `[0, 1)` in dimension 0 — `⌊x * 2⌋ = 0` for both — so
stratum 1 is not represented and the stratification invariant fails. -/
theorem sample_mu_stratification_failure :
    sample_mu_model (fun _ j => if j = 0 then 1/10 else 1/5) (fun _ i => i)
        [0] [1] 0 0 = 1/10 ∧
    sample_mu_model (fun _ j => if j = 0 then 1/10 else 1/5) (fun _ i => i)
        [0] [1] 1 0 = 1/5 ∧
    ⌊sample_mu_model (fun _ j => if j = 0 then 1/10 else 1/5) (fun _ i => i)
        [0] [1] 0 0 * 2⌋ = 0 ∧
    ⌊sample_mu_model (fun _ j => if j = 0 then 1/10 else 1/5) (fun _ i => i)
        [0] [1] 1 0 * 2⌋ = 0 := by
  have h0 : sample_mu_model (fun _ j => if j = 0 then 1/10 else 1/5)
      (fun _ i => i) [0] [1] 0 0 = 1/10 := by
    norm_num [sample_mu_model, lhsH]
  have h1 : sample_mu_model (fun _ j => if j = 0 then 1/10 else 1/5)
      (fun _ i => i) [0] [1] 1 0 = 1/5 := by
    norm_num [sample_mu_model, lhsH]
  refine ⟨h0, h1, ?_, ?_⟩
  · rw [h0, Int.floor_eq_iff]
    norm_num
  · rw [h1, Int.floor_eq_iff]
    norm_num

/-- Model of `PodnnModel.restruct`, time-dependent branch (lines 338–350 of
`podnnmodel.py`): it allocates `U_struct = np.zeros((n_v, U.shape[0], n_t, n_s))`
and assigns `U_struct[:, :, :, i] = U[:, n_t*i:n_t*(i+1)].reshape((n_v, n_xyz, n_t))`
for each sample `i`.  The reshape of the `(nRows, n_t)` block needs
`nRows = n_v * n_xyz` elements per time step, and the assignment broadcasts a
`(n_v, n_xyz, n_t)` block into a `(n_v, nRows, n_t)` slice, which numpy
accepts only when `n_xyz = nRows` or `n_xyz = 1` (a size-1 axis is stretched
by copying); any other combination raises a ValueError, modelled as `none`.
On success, entry `(a, p, j, i)` of the structured array is
`U[a*n_xyz + p', n_t*i + j]` with `p' = 0` when the `n_xyz` axis was
stretched. -/
def restruct_t_model (n_v n_xyz n_t nRows : ℕ) (U : ℕ → ℕ → ℚ) :
    Option (ℕ → ℕ → ℕ → ℕ → ℚ) :=
  if nRows = n_v * n_xyz then
    if n_xyz = nRows ∨ n_xyz = 1 then
      some (fun a p j i =>
        let p' := if n_xyz = 1 then 0 else p
        U (a * n_xyz + p') (n_t * i + j))
    else none
  else none

/-- C2 (failing input): for a time-dependent model with `n_v = 2` components,
`n_xyz = 3` nodes and `n_t = 2` time steps, `restruct` on a correctly shaped
`(n_h, n_t·n_s) = (6, 2)` snapshot matrix attempts to assign a reshaped
`(2, 3, 2)` block into the `(2, 6, 2)` slice of the misallocated
`(n_v, n_h, n_t, n_s)` output (the in-code comment promises
`(n_v, n_xyz, n_t, n_s)`), which numpy rejects: no entry is recovered. -/
theorem restruct_time_branch_broadcast_failure :
    restruct_t_model 2 3 2 6 (fun r c => (r : ℚ) * 10 + (c : ℚ)) = none := by
  norm_num [restruct_t_model]

/-- Population variance of a vector, so that `np.std v = sqrt (npVariance v)`. -/
def npVariance (v : List ℚ) : ℚ :=
  ((v.map (fun x => (x - v.sum / (v.length : ℚ)) ^ 2)).sum) / (v.length : ℚ)

/-- Model of `np.std` through the parameterized exact square root; a zero variance
yields exactly `0.0` (the real square root of 0) without consulting `sqrt`. -/
def npStd (sqrt : ℚ → ℚ) (v : List ℚ) : ℚ :=
  if npVariance v = 0 then 0 else sqrt (npVariance v)

/-- Input-noise step of the steady-state generator `loop_u` (lines 48–57 of
`acceleration.py`): when `x_noise > 0` the sample is perturbed by
`np.random.normal(0., x_noise*np.std(X_v[i, :]), X_v.shape[1])`, modelled with
the standard-normal draw `g` explicit as `x_noise * std * g` elementwise;
this variant has no zero-deviation fallback. -/
def loopU_perturb (sqrt : ℚ → ℚ) (xNoise : ℚ) (mu g : List ℚ) : List ℚ :=
  if 0 < xNoise then
    List.zipWith (fun m gi => m + xNoise * npStd sqrt mu * gi) mu g
  else mu

/-- Input-noise step of the time-dependent generator `loop_u_t` (lines 77–83
of `acceleration.py`): `dev = np.std(mu_i)`, replaced by `mu_i[0]` when that
deviation is zero, then `mu_i = mu_i + x_noise*dev*np.random.randn(...)`,
applied unconditionally. -/
def loopUT_perturb (sqrt : ℚ → ℚ) (xNoise : ℚ) (mu g : List ℚ) : List ℚ :=
  let dev0 := npStd sqrt mu
  let dev := if dev0 = 0 then mu.getD 0 0 else dev0
  List.zipWith (fun m gi => m + xNoise * dev * gi) mu g

/-- The input-noise policy as the claim states it for both variants: scale by
`x_noise` times the per-sample standard deviation, falling back to the first
component when that deviation is zero (claim side, for comparison). -/
def claimedPerturb (sqrt : ℚ → ℚ) (xNoise : ℚ) (mu g : List ℚ) : List ℚ :=
  let dev0 := npStd sqrt mu
  let dev := if dev0 = 0 then mu.getD 0 0 else dev0
  List.zipWith (fun m gi => m + xNoise * dev * gi) mu g

/-- C6 (counterexample): for the steady-state variant with the constant
parameter sample `mu = [2, 2]` (standard deviation zero), `x_noise = 1` and
Gaussian draw `g = [1, 1]`, `loop_u` leaves the sample unchanged (the noise
scale degenerates to zero), whereas the claimed first-component fallback
would give `[4, 4]`. -/
theorem loop_u_no_fallback_counterexample :
    loopU_perturb (fun _ => 0) 1 [2, 2] [1, 1] = [2, 2] ∧
    claimedPerturb (fun _ => 0) 1 [2, 2] [1, 1] = [4, 4] ∧
    loopU_perturb (fun _ => 0) 1 [2, 2] [1, 1] ≠
      claimedPerturb (fun _ => 0) 1 [2, 2] [1, 1] := by
  have hv : npVariance [2, 2] = 0 := by
    norm_num [npVariance]
  have hstd : npStd (fun _ => (0 : ℚ)) [2, 2] = 0 := by
    simp [npStd, hv]
  refine ⟨?_, ?_, ?_⟩
  · norm_num [loopU_perturb, hstd, List.zipWith]
  · norm_num [claimedPerturb, hstd, List.zipWith]
  · norm_num [loopU_perturb, claimedPerturb, hstd, List.zipWith]

lemma zipWith_left_id (f : ℚ → ℚ → ℚ) (hf : ∀ a b, f a b = a)
    (as bs : List ℚ) (h : as.length ≤ bs.length) :
    List.zipWith f as bs = as := by
  induction as generalizing bs with
  | nil => simp
  | cons a as ih =>
    rcases bs with _ | ⟨b, bs⟩
    · simp at h
    · simp only [List.zipWith_cons_cons, hf]
      rw [ih bs (by simpa using h)]

/-- C6 (amended): the zero-deviation fallback to the first component exists
only in the time-dependent variant.  For a parameter sample with zero
standard deviation, `loop_u_t` perturbs with scale `x_noise * mu[0]`, while
the steady-state `loop_u` returns the sample unchanged — degenerate zero
noise, no fallback. -/
theorem noise_fallback_only_time_dependent (sqrt : ℚ → ℚ) (xNoise : ℚ)
    (mu g : List ℚ) (hx : 0 < xNoise) (hv : npVariance mu = 0)
    (hlen : mu.length ≤ g.length) :
    loopUT_perturb sqrt xNoise mu g =
      List.zipWith (fun m gi => m + xNoise * mu.getD 0 0 * gi) mu g ∧
    loopU_perturb sqrt xNoise mu g = mu := by
  have hstd : npStd sqrt mu = 0 := by simp [npStd, hv]
  constructor
  · simp [loopUT_perturb, hstd]
  · rw [loopU_perturb, if_pos hx]
    simp only [hstd, mul_zero, zero_mul]
    exact zipWith_left_id _ (fun a b => by ring) mu g hlen

/-- Witness for `noise_fallback_only_time_dependent` at a concrete constant
sample and draw. -/
theorem noise_fallback_only_time_dependent_witness :
    loopUT_perturb (fun _ => 0) 1 [2, 2] [1, 1] =
      List.zipWith (fun m gi => m + 1 * ([2, 2] : List ℚ).getD 0 0 * gi)
        [2, 2] [1, 1] ∧
    loopU_perturb (fun _ => 0) 1 [2, 2] [1, 1] = [2, 2] :=
  noise_fallback_only_time_dependent (fun _ => 0) 1 [2, 2] [1, 1]
    (by norm_num) (by norm_num [npVariance]) (by norm_num)

/-- Number of test rows chosen by sklearn `train_test_split` for a fractional
`test_size`: `ceil(testSize * n)`. -/
def testCount (testSize : ℚ) (n : ℕ) : ℕ := Int.toNat ⌈testSize * (n : ℚ)⌉

/-- Row selection by an index list (missing indices give the empty row). -/
def selectRows (rows : List (List ℚ)) (idx : List ℕ) : List (List ℚ) :=
  idx.map (fun i => rows.getD i [])

/-- sklearn `train_test_split(X, y, test_size)` with its shuffle explicit:
`perm` is the random permutation of the row indices drawn by `ShuffleSplit`;
the first `ceil(testSize * n)` permuted indices form the test set and the
remaining ones the training set.  Returns
`(X_train, X_test, y_train, y_test)`. -/
def train_test_split_model (perm : List ℕ) (testSize : ℚ)
    (X y : List (List ℚ)) :
    List (List ℚ) × List (List ℚ) × List (List ℚ) × List (List ℚ) :=
  let nTest := testCount testSize X.length
  (selectRows X (perm.drop nTest), selectRows X (perm.take nTest),
   selectRows y (perm.drop nTest), selectRows y (perm.take nTest))

/-- Intermediate artifacts of one `generate_dataset` run. -/
structure GenDataset where
  muTrain : List (List ℚ)
  muTest : List (List ℚ)
  podInput : List (List ℚ)
  basis : List (List ℚ)

/-- Model of `PodnnModel.generate_dataset` (lines 192–285 of `podnnmodel.py`),
steady-state zero-noise instance, with the LHS output `muLhs`, the split
permutation `perm` and the basis extractor `pod` (`perform_pod` lives in
`podnn/pod.py`, outside the packaged sources, and is kept abstract) as
explicit inputs.  The code samples, then splits the parameter samples
(`train_test_split(fake_x, mu_lhs, test_size=train_val_test[2])`), then
generates snapshots separately for the two subsets (`create_snapshots` on
`mu_lhs_train` and, without noise, on `mu_lhs_test`), then extracts the basis
from the training snapshot matrix only (`perform_pod(U_train, ...)`).
`usol mu` is the flattened oracle snapshot for parameter sample `mu`;
`podInput` records the snapshot matrix handed to the basis extractor as a
list of columns. -/
def generate_dataset_model (usol : List ℚ → List ℚ)
    (pod : List (List ℚ) → List (List ℚ)) (muLhs : List (List ℚ))
    (perm : List ℕ) (testSize : ℚ) : GenDataset :=
  let nTest := testCount testSize muLhs.length
  let muTest := selectRows muLhs (perm.take nTest)
  let muTrain := selectRows muLhs (perm.drop nTest)
  let Utrain := muTrain.map usol
  { muTrain := muTrain, muTest := muTest, podInput := Utrain,
    basis := pod Utrain }

/-- C7 (counterexample): with two sampled parameter vectors `[[0], [1]]`, an
identity shuffle and `test_size = 1/2`, the snapshot matrix handed to the
basis extractor consists of the training subset's single snapshot only — it
is not the full set of generated snapshots, because `generate_dataset` splits
the parameter samples before generating snapshots and extracts the basis from
`U_train` alone. -/
theorem generate_dataset_basis_not_from_full_set :
    (generate_dataset_model (fun m => m) (fun M => M) [[0], [1]] [0, 1]
        (1/2)).podInput ≠ ([[0], [1]] : List (List ℚ)).map (fun m => m) := by
  have hc : testCount (2⁻¹) 2 = 1 := by
    norm_num [testCount]
  simp [generate_dataset_model, selectRows, hc]

/-- C7 (amended): in `generate_dataset` the train/test split of the parameter
samples happens before snapshot generation, and the basis extractor receives
exactly the snapshots of the training subset of the samples (the test subset
is generated separately and never enters `perform_pod`). -/
theorem generate_dataset_pipeline_order (usol : List ℚ → List ℚ)
    (pod : List (List ℚ) → List (List ℚ)) (muLhs : List (List ℚ))
    (perm : List ℕ) (testSize : ℚ) :
    (generate_dataset_model usol pod muLhs perm testSize).muTrain =
      selectRows muLhs (perm.drop (testCount testSize muLhs.length)) ∧
    (generate_dataset_model usol pod muLhs perm testSize).podInput =
      (selectRows muLhs (perm.drop (testCount testSize muLhs.length))).map usol ∧
    (generate_dataset_model usol pod muLhs perm testSize).basis =
      pod ((selectRows muLhs
        (perm.drop (testCount testSize muLhs.length))).map usol) :=
  ⟨rfl, rfl, rfl⟩

/-- Model of `PodnnModel.split_dataset` (lines 102–110 of `podnnmodel.py`): a
time-dependent model (`has_t`, i.e. `n_t > 0`) splits deterministically at
`n_st_train = int((1 - test_size) * X_v.shape[0])` with no shuffling, while a
steady-state model delegates to the shuffled `train_test_split`.  Returns
`(X_v_train, X_v_val, v_train, v_val)`. -/
def split_dataset_model (n_t : ℕ) (perm : List ℕ) (Xv v : List (List ℚ))
    (testSize : ℚ) :
    List (List ℚ) × List (List ℚ) × List (List ℚ) × List (List ℚ) :=
  if n_t = 0 then train_test_split_model perm testSize Xv v
  else
    let k := Int.toNat ⌊(1 - testSize) * ((Xv.length : ℕ) : ℚ)⌋
    (Xv.take k, Xv.drop k, v.take k, v.drop k)

/-- C10: for a time-dependent model the split is a deterministic head/tail
split — the first `⌊(1 - test_size)·r⌋` rows train, the remaining rows
validate, in their original order and independent of the shuffle permutation
— while for a steady-state model (`n_t = 0`) the split is randomized: the
concrete instance shows a shuffle permutation under which the steady split
differs from the deterministic head split of the same data. -/
theorem split_dataset_time_dependent_deterministic (n_t : ℕ) (perm : List ℕ)
    (Xv v : List (List ℚ)) (ts : ℚ) (hnt : 0 < n_t) (h1 : ts ≤ 1) :
    split_dataset_model n_t perm Xv v ts =
      (Xv.take (Int.toNat ⌊(1 - ts) * ((Xv.length : ℕ) : ℚ)⌋),
       Xv.drop (Int.toNat ⌊(1 - ts) * ((Xv.length : ℕ) : ℚ)⌋),
       v.take (Int.toNat ⌊(1 - ts) * ((Xv.length : ℕ) : ℚ)⌋),
       v.drop (Int.toNat ⌊(1 - ts) * ((Xv.length : ℕ) : ℚ)⌋)) ∧
    ((Int.toNat ⌊(1 - ts) * ((Xv.length : ℕ) : ℚ)⌋ : ℤ) =
      ⌊(1 - ts) * ((Xv.length : ℕ) : ℚ)⌋) ∧
    split_dataset_model 0 [0, 1] [[5], [7]] [[5], [7]] (1/2) ≠
      (([[5], [7]] : List (List ℚ)).take 1, ([[5], [7]] : List (List ℚ)).drop 1,
       ([[5], [7]] : List (List ℚ)).take 1,
       ([[5], [7]] : List (List ℚ)).drop 1) := by
  refine ⟨?_, ?_, ?_⟩
  · rw [split_dataset_model, if_neg (by omega : ¬ n_t = 0)]
  · apply Int.toNat_of_nonneg
    apply Int.floor_nonneg.mpr
    have : (0 : ℚ) ≤ 1 - ts := by linarith
    positivity
  · have hc : testCount (2⁻¹) 2 = 1 := by
      norm_num [testCount]
    simp [split_dataset_model, train_test_split_model, selectRows, hc]

/-- Witness for `split_dataset_time_dependent_deterministic` at a concrete
time-dependent model and dataset. -/
theorem split_dataset_time_dependent_deterministic_witness :
    split_dataset_model 4 [1, 0] [[1], [2]] [[3], [4]] (1/2) =
      (([[1], [2]] : List (List ℚ)).take
         (Int.toNat ⌊(1 - (1/2 : ℚ)) * (((([[1], [2]] : List (List ℚ)).length : ℕ)) : ℚ)⌋),
       ([[1], [2]] : List (List ℚ)).drop
         (Int.toNat ⌊(1 - (1/2 : ℚ)) * (((([[1], [2]] : List (List ℚ)).length : ℕ)) : ℚ)⌋),
       ([[3], [4]] : List (List ℚ)).take
         (Int.toNat ⌊(1 - (1/2 : ℚ)) * (((([[1], [2]] : List (List ℚ)).length : ℕ)) : ℚ)⌋),
       ([[3], [4]] : List (List ℚ)).drop
         (Int.toNat ⌊(1 - (1/2 : ℚ)) * (((([[1], [2]] : List (List ℚ)).length : ℕ)) : ℚ)⌋)) ∧
    ((Int.toNat ⌊(1 - (1/2 : ℚ)) * (((([[1], [2]] : List (List ℚ)).length : ℕ)) : ℚ)⌋ : ℤ) =
      ⌊(1 - (1/2 : ℚ)) * (((([[1], [2]] : List (List ℚ)).length : ℕ)) : ℚ)⌋) ∧
    split_dataset_model 0 [0, 1] [[5], [7]] [[5], [7]] (1/2) ≠
      (([[5], [7]] : List (List ℚ)).take 1, ([[5], [7]] : List (List ℚ)).drop 1,
       ([[5], [7]] : List (List ℚ)).take 1,
       ([[5], [7]] : List (List ℚ)).drop 1) :=
  split_dataset_time_dependent_deterministic 4 [1, 0] [[1], [2]] [[3], [4]]
    (1/2) (by norm_num) (by norm_num)

/-- A regressor as stored in `self.regnn`: its `predict` returns point
estimates together with their deviations. -/
structure RegStub where
  predictFn : List (List ℚ) → List (List ℚ) × List (List ℚ)

/-- The orchestrator artifacts of a `PodnnModel` read or written by `predict`
and `train`: the regressor, the basis `V`, the dimensions `n_L` and `n_d`,
and the POD residual signature (all `None` until a dataset/regressor is
set up). -/
structure OrchState where
  regnn : Option RegStub
  basisV : Option (List (List ℚ))
  nL : Option ℕ
  nD : Option ℕ
  podSig : Option (List ℚ)

/-- Python exception classes raised along the modelled paths. -/
inductive PyErr where
  | attributeError
  | valueError
  | fileNotFoundError
deriving DecidableEq

/-- Model of `PodnnModel.predict` (lines 366–378 of `podnnmodel.py`, with
`predict_v`): it calls `self.regnn.predict(X_v)` — an `AttributeError` on
`None` when no regressor was defined, i.e. before a successful `train` — and
then reconstructs `U_pred = self.V.dot(v_pred.T)` (an `AttributeError` on
`None` when no dataset exists).  No attribute of the orchestrator is
assigned on any path, so the unchanged post-state is returned with the
outcome. -/
def predict_model (s : OrchState) (X : List (List ℚ)) :
    OrchState × Except PyErr (List (List ℚ)) :=
  match s.regnn with
  | none => (s, Except.error PyErr.attributeError)
  | some reg =>
    match s.basisV with
    | none => (s, Except.error PyErr.attributeError)
    | some V => (s, Except.ok (((reg.predictFn X).1).map (matVec V)))

/-- Model of `PodnnModel.train` (lines 305–336 of `podnnmodel.py`): it raises
`ValueError("Regression model isn't defined.")` when `self.regnn is None`;
with a regressor but no dataset, `U_val = self.V.dot(v_val.T)` raises an
`AttributeError` on `None`.  No orchestrator attribute is assigned before
either raise point; the successful path delegates to the external
regressor's `fit` and saves. -/
def train_model (s : OrchState) (Xv v : List (List ℚ)) :
    OrchState × Except PyErr Unit :=
  match s.regnn with
  | none => (s, Except.error PyErr.valueError)
  | some _ =>
    match s.basisV with
    | none => (s, Except.error PyErr.attributeError)
    | some _ => (s, Except.ok ())

/-- C8: on an orchestrator with no regressor defined (no successful `train`),
`predict` raises (the out-of-sequence error surfaces as an `AttributeError`)
and leaves every stored artifact unchanged; `train` likewise fails before a
regressor exists (`ValueError`) leaving the state unchanged, and also fails
without mutation when a regressor exists but no dataset does. -/
theorem predict_train_out_of_sequence_error (s : OrchState)
    (X Xv v : List (List ℚ)) (h : s.regnn = none) :
    predict_model s X = (s, Except.error PyErr.attributeError) ∧
    train_model s Xv v = (s, Except.error PyErr.valueError) ∧
    (s.basisV = none → (train_model s Xv v).1 = s ∧
      ∀ u, (train_model s Xv v).2 ≠ Except.ok u) := by
  refine ⟨?_, ?_, ?_⟩
  · rw [predict_model, h]
  · rw [train_model, h]
  · intro hV
    rw [train_model, h]
    exact ⟨rfl, fun u => by simp⟩

/-- Witness for `predict_train_out_of_sequence_error` on the freshly
constructed, fully uninitialized orchestrator. -/
theorem predict_train_out_of_sequence_error_witness :
    predict_model ⟨none, none, none, none, none⟩ [[1]] =
      (⟨none, none, none, none, none⟩, Except.error PyErr.attributeError) ∧
    train_model ⟨none, none, none, none, none⟩ [[1]] [[2]] =
      (⟨none, none, none, none, none⟩, Except.error PyErr.valueError) ∧
    ((⟨none, none, none, none, none⟩ : OrchState).basisV = none →
      (train_model ⟨none, none, none, none, none⟩ [[1]] [[2]]).1 =
        ⟨none, none, none, none, none⟩ ∧
      ∀ u, (train_model ⟨none, none, none, none, none⟩ [[1]] [[2]]).2 ≠
        Except.ok u) :=
  predict_train_out_of_sequence_error ⟨none, none, none, none, none⟩
    [[1]] [[1]] [[2]] rfl

/-- Model of `os.path.join` for the checkpoint paths. -/
def pjoin (dir name : String) : String := dir ++ "/" ++ name

/-- The file system, as the set of currently existing paths. -/
structure FS where
  files : List String

/-- Model of `os.path.exists`. -/
def fexists (fs : FS) (p : String) : Bool := fs.files.contains p

/-- Model of `PodnnModel.load_setup_data` (lines 472–480 of `podnnmodel.py`): raises
`FileNotFoundError("Can't find setup data.")` unless the setup checkpoint
exists. -/
def load_setup_data_model (fs : FS) (dir : String) : Except PyErr Unit :=
  if fexists fs (pjoin dir "setup_data.pkl") then Except.ok ()
  else Except.error PyErr.fileNotFoundError

/-- Model of `PodnnModel.load_train_data` (lines 433–444): raises
`FileNotFoundError("Can't find train data.")` unless the training-data
checkpoint exists. -/
def load_train_data_model (fs : FS) (dir : String) : Except PyErr Unit :=
  if fexists fs (pjoin dir "train_data.pkl") then Except.ok ()
  else Except.error PyErr.fileNotFoundError

/-- Model of `PodnnModel.load_model` (lines 453–461): raises `FileNotFoundError`
unless all three serialized model files and the params file exist. -/
def load_model_files_model (fs : FS) (dir : String) : Except PyErr Unit :=
  if fexists fs (pjoin dir "model_p.h5") && fexists fs (pjoin dir "model_q.h5")
      && fexists fs (pjoin dir "model_t.h5") then
    if fexists fs (pjoin dir "model_params.pkl") then Except.ok ()
    else Except.error PyErr.fileNotFoundError
  else Except.error PyErr.fileNotFoundError

/-- The orchestrator value returned by a fully successful `load`. -/
structure LoadedOrch where
  resdir : String
deriving DecidableEq

/-- Model of `PodnnModel.load` (lines 482–489): loads the setup data, reconstructs the
orchestrator (its constructor rewrites the setup file, which the preceding
check guarantees already exists, leaving the path set unchanged), then loads
the training data and the model files; an orchestrator is returned only when
every step succeeded, and any failure propagates the raised error with no
fallback. -/
def load_cls_model (fs : FS) (dir : String) : Except PyErr LoadedOrch :=
  match load_setup_data_model fs dir with
  | Except.error e => Except.error e
  | Except.ok _ =>
    match load_train_data_model fs dir with
    | Except.error e => Except.error e
    | Except.ok _ =>
      match load_model_files_model fs dir with
      | Except.error e => Except.error e
      | Except.ok _ => Except.ok ⟨dir⟩

/-- C9: whenever any of the six checkpoint files expected by `load` (setup
data, training data, the three model files, the model params) does not
exist, `load` raises `FileNotFoundError` and returns no orchestrator — in
particular no partially initialized one. -/
theorem load_missing_checkpoint_fails (fs : FS) (dir : String)
    (h : fexists fs (pjoin dir "setup_data.pkl") = false ∨
      fexists fs (pjoin dir "train_data.pkl") = false ∨
      fexists fs (pjoin dir "model_p.h5") = false ∨
      fexists fs (pjoin dir "model_q.h5") = false ∨
      fexists fs (pjoin dir "model_t.h5") = false ∨
      fexists fs (pjoin dir "model_params.pkl") = false) :
    load_cls_model fs dir = Except.error PyErr.fileNotFoundError ∧
    ∀ m : LoadedOrch, load_cls_model fs dir ≠ Except.ok m := by
  have herr : load_cls_model fs dir = Except.error PyErr.fileNotFoundError := by
    unfold load_cls_model load_setup_data_model load_train_data_model
      load_model_files_model
    cases hsetup : fexists fs (pjoin dir "setup_data.pkl") <;>
      cases htrain : fexists fs (pjoin dir "train_data.pkl") <;>
      cases hp : fexists fs (pjoin dir "model_p.h5") <;>
      cases hq : fexists fs (pjoin dir "model_q.h5") <;>
      cases ht : fexists fs (pjoin dir "model_t.h5") <;>
      cases hpar : fexists fs (pjoin dir "model_params.pkl") <;>
      simp_all
  exact ⟨herr, fun m hm => by rw [herr] at hm; exact Except.noConfusion hm⟩

/-- Witness for `load_missing_checkpoint_fails` on an empty results
directory. -/
theorem load_missing_checkpoint_fails_witness :
    load_cls_model ⟨[]⟩ "res" = Except.error PyErr.fileNotFoundError ∧
    ∀ m : LoadedOrch, load_cls_model ⟨[]⟩ "res" ≠ Except.ok m :=
  load_missing_checkpoint_fails ⟨[]⟩ "res" (Or.inl rfl)

end PodUQNN
